import Mathlib

/-!
Shallow embedding of the pizza-ordering backend (`app.py`): menu and price
tables, topping validation, pricing, the mock payment authorizer, the
in-memory cart/order store and its operations.  Money is modelled as `ℚ`;
the Python builtin `round(x, 2)` is modelled as rounding to the nearest cent
with ties to even (Python 3 round-half-even).  `HTTPException(status, detail)`
is modelled by `HError`; state-mutating endpoints return the new state
together with an `Except HError` response, since a raise after a mutation
leaves the mutation in place.
-/

namespace PizzaApp

/-- Source `PizzaSize = Literal["small", "medium", "large"]`. -/
inductive PizzaSize
  | small | medium | large
deriving DecidableEq

/-- Source `CrustType = Literal["thin", "hand_tossed", "deep_dish", "gluten_free"]`. -/
inductive CrustType
  | thin | hand_tossed | deep_dish | gluten_free
deriving DecidableEq

/-- Source `SauceType = Literal["tomato", "alfredo", "bbq", "pesto"]`. -/
inductive SauceType
  | tomato | alfredo | bbq | pesto
deriving DecidableEq

/-- Source `CheeseLevel = Literal["light", "normal", "extra"]`. -/
inductive CheeseLevel
  | light | normal | extra
deriving DecidableEq

/-- Source `BakeLevel = Literal["normal", "well_done", "light_bake"]`. -/
inductive BakeLevel
  | normal | well_done | light_bake
deriving DecidableEq

/-- Source `CutStyle = Literal["pie", "square"]`. -/
inductive CutStyle
  | pie | square
deriving DecidableEq

/-- Source `CrustFlavor = Literal["none", "garlic_butter", "sesame"]`. -/
inductive CrustFlavor
  | none | garlic_butter | sesame
deriving DecidableEq

/-- Source `Drizzle = Literal["none", "ranch", "hot_honey"]`. -/
inductive Drizzle
  | none | ranch | hot_honey
deriving DecidableEq

/-- Source `DrinkType = Literal["none", "coke", "diet_coke", "sprite", "water", "root_beer"]`. -/
inductive DrinkType
  | none | coke | diet_coke | sprite | water | root_beer
deriving DecidableEq

/-- Source `PRICES["size"]`. -/
def PRICES_size : PizzaSize → ℚ
  | .small => 10
  | .medium => 13
  | .large => 16

/-- Source `PRICES["crust"]`. -/
def PRICES_crust : CrustType → ℚ
  | .thin => 0
  | .hand_tossed => 0
  | .deep_dish => 2
  | .gluten_free => 3

/-- Source `PRICES["cheese"]`. -/
def PRICES_cheese : CheeseLevel → ℚ
  | .light => -(1/2)
  | .normal => 0
  | .extra => 3/2

/-- Source `PRICES["crust_flavor"]`. -/
def PRICES_crust_flavor : CrustFlavor → ℚ
  | .none => 0
  | .garlic_butter => 3/4
  | .sesame => 1/2

/-- Source `PRICES["drizzle"]`. -/
def PRICES_drizzle : Drizzle → ℚ
  | .none => 0
  | .ranch => 3/4
  | .hot_honey => 19/20

/-- Source `PRICES["topping_each"]`. -/
def PRICES_topping_each : ℚ := 5/4

/-- Source `PRICES["drink"]`. -/
def PRICES_drink : DrinkType → ℚ
  | .none => 0
  | .coke => 9/4
  | .diet_coke => 9/4
  | .sprite => 9/4
  | .water => 3/2
  | .root_beer => 9/4

/-- Source `PRICES["tax_rate"]`. -/
def PRICES_tax_rate : ℚ := 33/400

/-- The fixed 12-name topping catalog `TOPPINGS`. -/
def TOPPINGS : List String :=
  ["pepperoni", "sausage", "bacon", "ham",
   "mushrooms", "onions", "green_peppers", "jalapenos",
   "black_olives", "pineapple", "spinach", "tomatoes"]

/-- Source `class PizzaCustomization(BaseModel)`. -/
structure PizzaCustomization where
  size : PizzaSize
  crust : CrustType
  sauce : SauceType
  cheese : CheeseLevel
  bake : BakeLevel := .normal
  cut : CutStyle := .pie
  crust_flavor : CrustFlavor := .none
  drizzle : Drizzle := .none
  toppings : List String := []
  instructions : String := ""
deriving DecidableEq

/-- Source `class CartPizzaItem(BaseModel)` (the `kind` discriminator is the constructor tag). -/
structure CartPizzaItem where
  name : String := "Custom Pizza"
  customization : PizzaCustomization
  qty : Nat := 1
deriving DecidableEq

/-- Source `class CartDrinkItem(BaseModel)`. -/
structure CartDrinkItem where
  drink : DrinkType
  qty : Nat := 1
deriving DecidableEq

/-- Source `CartItem = CartPizzaItem | CartDrinkItem`. -/
inductive CartItem
  | pizza (p : CartPizzaItem)
  | drink (d : CartDrinkItem)
deriving DecidableEq

/-- Source `item.qty` regardless of the union tag. -/
def CartItem.qty : CartItem → Nat
  | .pizza p => p.qty
  | .drink d => d.qty

/-- Source `class Cart(BaseModel)`. -/
structure Cart where
  cart_id : String
  items : List CartItem := []
deriving DecidableEq

/-- Source `class CustomerInfo(BaseModel)` (length/format constraints live in the input contract). -/
structure CustomerInfo where
  full_name : String
  email : Option String := Option.none
  phone : String
  address_line1 : String
  address_line2 : String := ""
  city : String
  state : String
  postal_code : String
deriving DecidableEq

/-- Source `PaymentMethod = Literal["card", "cash", "giftcard"]`. -/
inductive PaymentMethod
  | card | cash | giftcard
deriving DecidableEq

/-- Source `class PaymentInfo(BaseModel)`. -/
structure PaymentInfo where
  method : PaymentMethod := .card
  card_number : Option String := Option.none
  exp_month : Option Nat := Option.none
  exp_year : Option Nat := Option.none
  cvv : Option String := Option.none
  zip_code : Option String := Option.none
  code : Option String := Option.none
deriving DecidableEq

/-- Source `fastapi.HTTPException(status_code, detail)`. -/
structure HError where
  status : Nat
  detail : String
deriving DecidableEq

deriving instance DecidableEq for Except

/-- Python `round` to an integer: nearest, ties to even (round-half-even).
`q.num.fdiv q.den` is `⌊q⌋`, written so the kernel can evaluate it. -/
def pyRound (q : ℚ) : ℤ :=
  let f := q.num.fdiv q.den
  let frac := q - (f : ℚ)
  if frac < 1/2 then f
  else if 1/2 < frac then f + 1
  else if f % 2 = 0 then f else f + 1

/-- Python `round(x, 2)`: round to the nearest cent. -/
def round2 (q : ℚ) : ℚ := (pyRound (q * 100) : ℚ) / 100

/-- The validity-checking loop of `validate_toppings`: raises
`Invalid topping: t` at the first `t` not in the catalog, otherwise returns
the accumulated `clean` list (equal to the input). -/
def checkToppings : List String → Except HError (List String)
  | [] => .ok []
  | t :: rest =>
    if t ∈ TOPPINGS then
      match checkToppings rest with
      | .ok clean => .ok (t :: clean)
      | .error e => .error e
    else .error ⟨400, "Invalid topping: " ++ t⟩

/-- The dedup loop of `validate_toppings`: drop entries already in `seen`,
keep first occurrences in order. -/
def dedupFirst (seen : List String) : List String → List String
  | [] => []
  | t :: rest =>
    if t ∈ seen then dedupFirst seen rest
    else t :: dedupFirst (t :: seen) rest

/-- Source `def validate_toppings(toppings)`. -/
def validate_toppings (toppings : List String) : Except HError (List String) :=
  match checkToppings toppings with
  | .ok clean => .ok (dedupFirst [] clean)
  | .error e => .error e

/-- Source `def price_pizza(custom)`. -/
def price_pizza (custom : PizzaCustomization) : Except HError ℚ :=
  match validate_toppings custom.toppings with
  | .error e => .error e
  | .ok toppings =>
    let base := PRICES_size custom.size
    let crust := PRICES_crust custom.crust
    let cheese := PRICES_cheese custom.cheese
    let crust_flavor := PRICES_crust_flavor custom.crust_flavor
    let drizzle := PRICES_drizzle custom.drizzle
    let topping_cost := PRICES_topping_each * toppings.length
    .ok (round2 (base + crust + cheese + crust_flavor + drizzle + topping_cost))

/-- Source `def price_drink(drink)`. -/
def price_drink (drink : DrinkType) : ℚ := round2 (PRICES_drink drink)

/-- The per-item unit price used by the `cart_subtotal` loop
(`price_pizza` for pizzas, `price_drink` for drinks). -/
def item_unit_price : CartItem → Except HError ℚ
  | .pizza p => price_pizza p.customization
  | .drink d => .ok (price_drink d.drink)

/-- The accumulation loop of `cart_subtotal`: `total += unit * item.qty`. -/
def items_total (acc : ℚ) : List CartItem → Except HError ℚ
  | [] => .ok acc
  | it :: rest =>
    match item_unit_price it with
    | .error e => .error e
    | .ok unit => items_total (acc + unit * it.qty) rest

/-- Source `def cart_subtotal(cart)`. -/
def cart_subtotal (cart : Cart) : Except HError ℚ :=
  match items_total 0 cart.items with
  | .error e => .error e
  | .ok total => .ok (round2 total)

/-- The `{subtotal, tax, total}` record returned by `compute_totals`. -/
structure Totals where
  subtotal : ℚ
  tax : ℚ
  total : ℚ
deriving DecidableEq

/-- Source `def compute_totals(cart)`. -/
def compute_totals (cart : Cart) : Except HError Totals :=
  match cart_subtotal cart with
  | .error e => .error e
  | .ok subtotal =>
    let tax := round2 (subtotal * PRICES_tax_rate)
    let total := round2 (subtotal + tax)
    .ok ⟨subtotal, tax, total⟩

/-- Python truthiness of an optional string field: `x in (None, "")` / `not x`. -/
def optStrFalsy (o : Option String) : Bool := (o.getD "").isEmpty

/-- Source `PaymentInfo.normalized_card_digits`. -/
def normalized_card_digits (p : PaymentInfo) : String :=
  String.mk ((p.card_number.getD "").toList.filter Char.isDigit)

/-- The list of missing card fields computed by `PaymentInfo.validate_required`,
in the field order of the source. -/
def missing_card_fields (p : PaymentInfo) : List String :=
  (if optStrFalsy p.card_number then ["card_number"] else []) ++
  (if p.exp_month.isNone then ["exp_month"] else []) ++
  (if p.exp_year.isNone then ["exp_year"] else []) ++
  (if optStrFalsy p.cvv then ["cvv"] else []) ++
  (if optStrFalsy p.zip_code then ["zip_code"] else [])

/-- Source `PaymentInfo.validate_required`. -/
def validate_required (p : PaymentInfo) : Except HError Unit :=
  if p.method = .card ∧ missing_card_fields p ≠ [] then
    .error ⟨400, "Missing card fields: " ++ String.intercalate ", " (missing_card_fields p)⟩
  else if p.method = .giftcard ∧ optStrFalsy p.code then
    .error ⟨400, "Missing gift card code"⟩
  else .ok ()

/-- The authorization result dict of `mock_authorize`: `approved` carries
`auth_id`, `amount` and (for cards) `card_last4`; `declined` carries `reason`. -/
inductive AuthResult
  | approved (auth_id : String) (amount : ℚ) (card_last4 : Option String)
  | declined (reason : String)
deriving DecidableEq

/-- The ambient inputs the code reads from the outside world:
`datetime.utcnow()` (year, month and the iso timestamp string) and the
`uuid4().hex` strings consumed by id generation. -/
structure Env where
  now_year : Nat
  now_month : Nat
  fresh_auth : String
  fresh_order : String
  now_iso : String

/-- Source `def mock_authorize(payment, amount)`; `env` supplies the current date and
the fresh uuid hex for the generated authorization id. -/
def mock_authorize (payment : PaymentInfo) (amount : ℚ) (env : Env) :
    Except HError AuthResult :=
  match validate_required payment with
  | .error e => .error e
  | .ok _ =>
    match payment.method with
    | .cash => .ok (.approved "cash" amount Option.none)
    | .giftcard =>
      if (payment.code.getD "").trim.toUpper = "DECLINE" then
        .ok (.declined "Mock gift card declined")
      else .ok (.approved ("gift_" ++ env.fresh_auth.take 10) amount Option.none)
    | .card =>
      let ey := payment.exp_year.getD 0
      let em := payment.exp_month.getD 0
      let exp_ok := ey > env.now_year ∨ (ey = env.now_year ∧ em ≥ env.now_month)
      if ¬ exp_ok then .ok (.declined "Card expired")
      else
        let digits := normalized_card_digits payment
        if ("0000" : String).data.isSuffixOf digits.data then
          .ok (.declined "Mock decline rule (ends with 0000)")
        else
          let auth_id := "auth_" ++ env.fresh_auth.take 12
          let last4 := if digits.length ≥ 4 then digits.takeRight 4 else "????"
          .ok (.approved auth_id amount (some last4))

/-- An order line item as produced by `enrich_order_items`: the cart item dict
plus its `unit_price` and `line_total` keys. -/
structure EnrichedItem where
  item : CartItem
  unit_price : ℚ
  line_total : ℚ
deriving DecidableEq

/-- Source `def enrich_order_items(items)`: re-price each item (re-validating pizza
toppings), attaching `unit_price` and `line_total`; `qty = d.get("qty") or 1`. -/
def enrich_order_items : List CartItem → Except HError (List EnrichedItem)
  | [] => .ok []
  | it :: rest =>
    match item_unit_price it with
    | .error e => .error e
    | .ok unit =>
      match enrich_order_items rest with
      | .error e => .error e
      | .ok r =>
        let qty : Nat := if it.qty = 0 then 1 else it.qty
        .ok (⟨it, round2 unit, round2 (unit * qty)⟩ :: r)

/-- The order summary dict stored in `ORDERS` by `place_order`. -/
structure Order where
  order_id : String
  created_at_utc : String
  customer : CustomerInfo
  items : List EnrichedItem
  totals : Totals
  payment : AuthResult
  status : String
deriving DecidableEq

/-- The module-level stores `CARTS` and `ORDERS`, as association lists with
the most recent binding first. -/
structure AppState where
  carts : List (String × Cart)
  orders : List (String × Order)

/-- Source `CARTS.get(cart_id)`. -/
def getCartStore (st : AppState) (cart_id : String) : Option Cart :=
  st.carts.lookup cart_id

/-- Rebinding `CARTS[cart_id].items` in place (the Python code mutates the
stored `Cart` object). -/
def setCart (st : AppState) (cart_id : String) (c : Cart) : AppState :=
  ⟨st.carts.map (fun p => if p.1 = cart_id then (p.1, c) else p), st.orders⟩

/-- Source `def create_cart()`; the uuid hex comes from `env.fresh_order`. -/
def create_cart (st : AppState) (fresh : String) : AppState × Cart :=
  let cart_id := "cart_" ++ fresh.take 12
  let cart : Cart := ⟨cart_id, []⟩
  (⟨(cart_id, cart) :: st.carts, st.orders⟩, cart)

/-- Source `def get_cart(cart_id)`. -/
def get_cart (st : AppState) (cart_id : String) : Except HError (Cart × Totals) :=
  match getCartStore st cart_id with
  | Option.none => .error ⟨404, "Cart not found"⟩
  | some cart =>
    match compute_totals cart with
    | .error e => .error e
    | .ok totals => .ok (cart, totals)

/-- Source `def add_pizza(cart_id, item)`: validates/deduplicates the toppings on the
item, then appends it.  The response recomputes totals after the append, so a
pricing failure there still leaves the item appended. -/
def add_pizza (st : AppState) (cart_id : String) (item : CartPizzaItem) :
    AppState × Except HError (Cart × Totals) :=
  match getCartStore st cart_id with
  | Option.none => (st, .error ⟨404, "Cart not found"⟩)
  | some cart =>
    match validate_toppings item.customization.toppings with
    | .error e => (st, .error e)
    | .ok ts =>
      let item' : CartPizzaItem :=
        { item with customization := { item.customization with toppings := ts } }
      let cart' : Cart := { cart with items := cart.items ++ [.pizza item'] }
      let st' := setCart st cart_id cart'
      match compute_totals cart' with
      | .error e => (st', .error e)
      | .ok totals => (st', .ok (cart', totals))

/-- Source `def add_drink(cart_id, item)`: rejects the `none` sentinel, otherwise
appends. -/
def add_drink (st : AppState) (cart_id : String) (item : CartDrinkItem) :
    AppState × Except HError (Cart × Totals) :=
  match getCartStore st cart_id with
  | Option.none => (st, .error ⟨404, "Cart not found"⟩)
  | some cart =>
    if item.drink = .none then
      (st, .error ⟨400, "Drink cannot be \x27none\x27 as an item"⟩)
    else
      let cart' : Cart := { cart with items := cart.items ++ [.drink item] }
      let st' := setCart st cart_id cart'
      match compute_totals cart' with
      | .error e => (st', .error e)
      | .ok totals => (st', .ok (cart', totals))

/-- Source `item.qty = req.qty; cart.items[req.index] = item`. -/
def CartItem.withQty (q : Nat) : CartItem → CartItem
  | .pizza p => .pizza { p with qty := q }
  | .drink d => .drink { d with qty := q }

/-- Source `def update_qty(cart_id, req)`. -/
def update_qty (st : AppState) (cart_id : String) (index qty : Nat) :
    AppState × Except HError (Cart × Totals) :=
  match getCartStore st cart_id with
  | Option.none => (st, .error ⟨404, "Cart not found"⟩)
  | some cart =>
    if index ≥ cart.items.length then (st, .error ⟨400, "Invalid index"⟩)
    else
      let cart' : Cart :=
        { cart with items :=
            cart.items.set index ((cart.items.getD index (.drink ⟨.none, 1⟩)).withQty qty) }
      let st' := setCart st cart_id cart'
      match compute_totals cart' with
      | .error e => (st', .error e)
      | .ok totals => (st', .ok (cart', totals))

/-- Source `def remove_item(cart_id, req)`: `cart.items.pop(req.index)`. -/
def remove_item (st : AppState) (cart_id : String) (index : Nat) :
    AppState × Except HError (Cart × Totals) :=
  match getCartStore st cart_id with
  | Option.none => (st, .error ⟨404, "Cart not found"⟩)
  | some cart =>
    if index ≥ cart.items.length then (st, .error ⟨400, "Invalid index"⟩)
    else
      let cart' : Cart := { cart with items := cart.items.eraseIdx index }
      let st' := setCart st cart_id cart'
      match compute_totals cart' with
      | .error e => (st', .error e)
      | .ok totals => (st', .ok (cart', totals))

/-- Source `def clear_cart(cart_id)`: `cart.items = []`. -/
def clear_cart (st : AppState) (cart_id : String) :
    AppState × Except HError (Cart × Totals) :=
  match getCartStore st cart_id with
  | Option.none => (st, .error ⟨404, "Cart not found"⟩)
  | some cart =>
    let cart' : Cart := { cart with items := [] }
    let st' := setCart st cart_id cart'
    match compute_totals cart' with
    | .error e => (st', .error e)
    | .ok totals => (st', .ok (cart', totals))

/-- Source `class PlaceOrderRequest(BaseModel)`. -/
structure PlaceOrderRequest where
  cart_id : String
  customer : CustomerInfo
  payment : PaymentInfo

/-- The two success shapes of `place_order`: `{ok: False, message, payment,
order_summary: {cart, totals, customer}}` and `{ok: True, order_summary}`. -/
inductive PlaceResult
  | notPlaced (payment : AuthResult) (cart : Cart) (totals : Totals) (customer : CustomerInfo)
  | placed (order : Order)
deriving DecidableEq

/-- Source `def place_order(req)`. -/
def place_order (st : AppState) (req : PlaceOrderRequest) (env : Env) :
    AppState × Except HError PlaceResult :=
  match getCartStore st req.cart_id with
  | Option.none => (st, .error ⟨404, "Cart not found"⟩)
  | some cart =>
    if cart.items = [] then (st, .error ⟨400, "Cart is empty"⟩)
    else
      match compute_totals cart with
      | .error e => (st, .error e)
      | .ok totals =>
        match mock_authorize req.payment totals.total env with
        | .error e => (st, .error e)
        | .ok (.declined reason) =>
          (st, .ok (.notPlaced (.declined reason) cart totals req.customer))
        | .ok (.approved auth_id amount card_last4) =>
          let order_id := "order_" ++ env.fresh_order.take 12
          match enrich_order_items cart.items with
          | .error e => (st, .error e)
          | .ok items =>
            let summary : Order :=
              ⟨order_id, env.now_iso ++ "Z", req.customer, items, totals,
               .approved auth_id amount card_last4, "placed"⟩
            let st' : AppState := ⟨st.carts, (order_id, summary) :: st.orders⟩
            let st'' := setCart st' req.cart_id { cart with items := [] }
            (st'', .ok (.placed summary))

/-- Source `def get_order(order_id)`. -/
def get_order (st : AppState) (order_id : String) : Except HError Order :=
  match st.orders.lookup order_id with
  | Option.none => .error ⟨404, "Order not found"⟩
  | some order => .ok order

/-- A rational that is a whole number of cents. -/
def IsCents (q : ℚ) : Prop := ∃ m : ℤ, q = (m : ℚ) / 100

/-- Spec-side reading of `cartSubtotal` (from the words of the spec): the per-item
line totals `unit_price * quantity`, each independently rounded to 2 decimals. -/
def line_totals : List CartItem → Except HError (List ℚ)
  | [] => .ok []
  | it :: rest =>
    match item_unit_price it with
    | .error e => .error e
    | .ok unit =>
      match line_totals rest with
      | .error e => .error e
      | .ok r => .ok (round2 (unit * it.qty) :: r)

/-- Spec-side reading of `cartSubtotal`: sum of the independently rounded line
totals, the sum itself rounded. -/
def cart_subtotal_spec (cart : Cart) : Except HError ℚ :=
  match line_totals cart.items with
  | .error e => .error e
  | .ok ls => .ok (round2 ls.sum)

/-- A topping list that is duplicate-free and drawn from the catalog. -/
def ToppingsOK (ts : List String) : Prop := ts.Nodup ∧ ∀ t ∈ ts, t ∈ TOPPINGS

/-- Every pizza item carries an OK topping list (drinks trivially OK). -/
def ItemOK : CartItem → Prop
  | .pizza p => ToppingsOK p.customization.toppings
  | .drink _ => True

/-- Every item of the cart is OK. -/
def CartOK (c : Cart) : Prop := ∀ it ∈ c.items, ItemOK it

/-- Every cart stored in the state is OK. -/
def StateInv (st : AppState) : Prop := ∀ e ∈ st.carts, CartOK e.2

/-- States reachable from the empty store by the API operations; every step
takes the state component of the result of the operation, whether or not the
response was an error (a raise after a mutation keeps the mutation). -/
inductive Reachable : AppState → Prop
  | init : Reachable ⟨[], []⟩
  | create_step {st} (fresh : String) :
      Reachable st → Reachable (create_cart st fresh).1
  | add_pizza_step {st} (cart_id : String) (item : CartPizzaItem) :
      Reachable st → Reachable (add_pizza st cart_id item).1
  | add_drink_step {st} (cart_id : String) (item : CartDrinkItem) :
      Reachable st → Reachable (add_drink st cart_id item).1
  | update_qty_step {st} (cart_id : String) (index qty : Nat) :
      Reachable st → Reachable (update_qty st cart_id index qty).1
  | remove_item_step {st} (cart_id : String) (index : Nat) :
      Reachable st → Reachable (remove_item st cart_id index).1
  | clear_step {st} (cart_id : String) :
      Reachable st → Reachable (clear_cart st cart_id).1
  | place_order_step {st} (req : PlaceOrderRequest) (env : Env) :
      Reachable st → Reachable (place_order st req env).1

/-! ### Rounding lemmas -/

theorem pyRound_intCast (n : ℤ) : pyRound (n : ℚ) = n := by
  have h1 : Int.fdiv n 1 = n := by
    rw [Int.fdiv_eq_ediv n (by norm_num)]; simp
  simp [pyRound, Rat.num_intCast, Rat.den_intCast, h1]

theorem isCents_round2 (q : ℚ) : IsCents (round2 q) := ⟨pyRound (q * 100), rfl⟩

theorem round2_eq_self {q : ℚ} (h : IsCents q) : round2 q = q := by
  obtain ⟨m, rfl⟩ := h
  rw [round2, div_mul_cancel₀ _ (by norm_num : (100 : ℚ) ≠ 0), pyRound_intCast]

theorem IsCents.add {a b : ℚ} (ha : IsCents a) (hb : IsCents b) : IsCents (a + b) := by
  obtain ⟨m, rfl⟩ := ha; obtain ⟨n, rfl⟩ := hb
  exact ⟨m + n, by push_cast; ring⟩

theorem IsCents.mul_nat {a : ℚ} (ha : IsCents a) (k : ℕ) : IsCents (a * k) := by
  obtain ⟨m, rfl⟩ := ha
  exact ⟨m * k, by push_cast; ring⟩

theorem isCents_zero : IsCents 0 := ⟨0, by norm_num⟩

/-! ### Topping validation lemmas -/

theorem checkToppings_ok_of_valid :
    ∀ {l : List String}, (∀ t ∈ l, t ∈ TOPPINGS) → checkToppings l = .ok l := by
  intro l
  induction l with
  | nil => intro _; rfl
  | cons t rest ih =>
    intro h
    have ht : t ∈ TOPPINGS := h t (by simp)
    have hr : checkToppings rest = .ok rest := ih fun x hx => h x (by simp [hx])
    simp [checkToppings, ht, hr]

theorem checkToppings_ok_inv :
    ∀ {l c : List String}, checkToppings l = .ok c → c = l ∧ ∀ t ∈ l, t ∈ TOPPINGS := by
  intro l
  induction l with
  | nil =>
    intro c h
    simp only [checkToppings] at h
    cases h
    exact ⟨rfl, by simp⟩
  | cons t rest ih =>
    intro c h
    by_cases ht : t ∈ TOPPINGS
    · simp only [checkToppings, if_pos ht] at h
      cases hr : checkToppings rest with
      | ok clean =>
        rw [hr] at h
        obtain ⟨rfl, hall⟩ := ih hr
        cases h
        refine ⟨rfl, ?_⟩
        intro x hx
        rcases List.mem_cons.1 hx with rfl | hx'
        · exact ht
        · exact hall x hx'
      | error e => rw [hr] at h; cases h
    · simp [checkToppings, if_neg ht] at h

theorem checkToppings_error_first :
    ∀ {l : List String} {bad : String},
      l.find? (fun t => !(decide (t ∈ TOPPINGS))) = some bad →
      checkToppings l = .error ⟨400, "Invalid topping: " ++ bad⟩ := by
  intro l
  induction l with
  | nil => intro bad h; simp at h
  | cons t rest ih =>
    intro bad h
    by_cases ht : t ∈ TOPPINGS
    · rw [List.find?_cons_of_neg _ (by simp [ht])] at h
      have hr := ih h
      simp [checkToppings, ht, hr]
    · rw [List.find?_cons_of_pos _ (by simp [ht])] at h
      cases h
      simp [checkToppings, ht]

theorem mem_dedupFirst :
    ∀ (l seen : List String) (x : String),
      x ∈ dedupFirst seen l ↔ x ∈ l ∧ x ∉ seen := by
  intro l
  induction l with
  | nil => intro seen x; simp [dedupFirst]
  | cons t rest ih =>
    intro seen x
    by_cases ht : t ∈ seen
    · simp only [dedupFirst, if_pos ht, ih]
      constructor
      · rintro ⟨hx, hs⟩; exact ⟨by simp [hx], hs⟩
      · rintro ⟨hx, hs⟩
        rcases List.mem_cons.1 hx with rfl | hx'
        · exact absurd ht hs
        · exact ⟨hx', hs⟩
    · simp only [dedupFirst, if_neg ht, List.mem_cons, ih]
      constructor
      · rintro (rfl | ⟨hx, hs⟩)
        · exact ⟨Or.inl rfl, ht⟩
        · exact ⟨Or.inr hx, fun hc => hs (by simp [hc])⟩
      · rintro ⟨rfl | hx, hs⟩
        · exact Or.inl rfl
        · by_cases hxt : x = t
          · exact Or.inl hxt
          · exact Or.inr ⟨hx, by simp [hxt, hs]⟩

theorem nodup_dedupFirst : ∀ (l seen : List String), (dedupFirst seen l).Nodup := by
  intro l
  induction l with
  | nil => intro seen; simp [dedupFirst]
  | cons t rest ih =>
    intro seen
    by_cases ht : t ∈ seen
    · simpa [dedupFirst, if_pos ht] using ih seen
    · rw [dedupFirst, if_neg ht]
      refine List.nodup_cons.2 ⟨?_, ih (t :: seen)⟩
      rw [mem_dedupFirst]
      rintro ⟨-, hc⟩
      exact hc (by simp)

theorem sublist_dedupFirst : ∀ (l seen : List String), List.Sublist (dedupFirst seen l) l := by
  intro l
  induction l with
  | nil => intro seen; simp [dedupFirst]
  | cons t rest ih =>
    intro seen
    by_cases ht : t ∈ seen
    · rw [dedupFirst, if_pos ht]; exact (ih seen).cons t
    · rw [dedupFirst, if_neg ht]; exact (ih (t :: seen)).cons₂ t

theorem dedupFirst_of_nodup :
    ∀ {l seen : List String}, l.Nodup → (∀ t ∈ l, t ∉ seen) → dedupFirst seen l = l := by
  intro l
  induction l with
  | nil => intro seen _ _; rfl
  | cons t rest ih =>
    intro seen hnd hdisj
    have ht : t ∉ seen := hdisj t (by simp)
    rw [dedupFirst, if_neg ht, ih (List.nodup_cons.1 hnd).2]
    intro x hx
    simp only [List.mem_cons, not_or]
    exact ⟨fun hc => (List.nodup_cons.1 hnd).1 (hc ▸ hx), hdisj x (by simp [hx])⟩

theorem length_dedupFirst_eq_length_dedup (l : List String) :
    (dedupFirst [] l).length = l.dedup.length := by
  have hperm : List.Perm (dedupFirst [] l) l.dedup := by
    rw [List.perm_ext_iff_of_nodup (nodup_dedupFirst l []) (List.nodup_dedup l)]
    intro a
    rw [mem_dedupFirst, List.mem_dedup]
    simp
  exact hperm.length_eq

theorem validate_toppings_of_valid {l : List String} (h : ∀ t ∈ l, t ∈ TOPPINGS) :
    validate_toppings l = .ok (dedupFirst [] l) := by
  rw [validate_toppings, checkToppings_ok_of_valid h]

theorem validate_toppings_ok_inv {l out : List String}
    (h : validate_toppings l = .ok out) :
    out = dedupFirst [] l ∧ ∀ t ∈ l, t ∈ TOPPINGS := by
  rw [validate_toppings] at h
  cases hc : checkToppings l with
  | ok clean =>
    rw [hc] at h
    obtain ⟨rfl, hall⟩ := checkToppings_ok_inv hc
    simp at h
    exact ⟨h.symm, hall⟩
  | error e => rw [hc] at h; cases h

theorem validate_toppings_error_first {l : List String} {bad : String}
    (h : l.find? (fun t => !(decide (t ∈ TOPPINGS))) = some bad) :
    validate_toppings l = .error ⟨400, "Invalid topping: " ++ bad⟩ := by
  rw [validate_toppings, checkToppings_error_first h]

theorem validate_toppings_ok_props {l out : List String}
    (h : validate_toppings l = .ok out) :
    out.Nodup ∧ ∀ t ∈ out, t ∈ TOPPINGS := by
  obtain ⟨rfl, hall⟩ := validate_toppings_ok_inv h
  refine ⟨nodup_dedupFirst l [], fun t ht => ?_⟩
  exact hall t ((mem_dedupFirst l [] t).1 ht).1

/-! ### Pricing lemmas -/

theorem price_pizza_of_valid {c : PizzaCustomization}
    (h : ∀ t ∈ c.toppings, t ∈ TOPPINGS) :
    price_pizza c = .ok (round2 (PRICES_size c.size + PRICES_crust c.crust +
      PRICES_cheese c.cheese + PRICES_crust_flavor c.crust_flavor +
      PRICES_drizzle c.drizzle +
      PRICES_topping_each * (dedupFirst [] c.toppings).length)) := by
  rw [price_pizza, validate_toppings_of_valid h]

theorem price_pizza_ok_inv {c : PizzaCustomization} {u : ℚ}
    (h : price_pizza c = .ok u) :
    u = round2 (PRICES_size c.size + PRICES_crust c.crust +
      PRICES_cheese c.cheese + PRICES_crust_flavor c.crust_flavor +
      PRICES_drizzle c.drizzle +
      PRICES_topping_each * (dedupFirst [] c.toppings).length) ∧
    ∀ t ∈ c.toppings, t ∈ TOPPINGS := by
  rw [price_pizza] at h
  cases hv : validate_toppings c.toppings with
  | error e => rw [hv] at h; cases h
  | ok out =>
    rw [hv] at h
    obtain ⟨rfl, hall⟩ := validate_toppings_ok_inv hv
    cases h
    exact ⟨rfl, hall⟩

theorem item_unit_price_isCents {it : CartItem} {u : ℚ}
    (h : item_unit_price it = .ok u) : IsCents u := by
  cases it with
  | pizza p =>
    rw [(price_pizza_ok_inv h).1]
    exact isCents_round2 _
  | drink d =>
    cases h
    exact isCents_round2 _

/-! ### Subtotal lemmas -/

theorem line_totals_ok_items_total :
    ∀ {l : List CartItem} {ls : List ℚ} (acc : ℚ), IsCents acc →
      line_totals l = .ok ls → items_total acc l = .ok (acc + ls.sum) := by
  intro l
  induction l with
  | nil =>
    intro ls acc _ h
    cases h
    simp [items_total]
  | cons it rest ih =>
    intro ls acc hacc h
    rw [line_totals] at h
    cases hu : item_unit_price it with
    | error e => rw [hu] at h; cases h
    | ok unit =>
      rw [hu] at h
      cases hr : line_totals rest with
      | error e => rw [hr] at h; cases h
      | ok r =>
        rw [hr] at h
        cases h
        have hu_c : IsCents (unit * it.qty) :=
          (item_unit_price_isCents hu).mul_nat it.qty
        have hrec := ih (acc + unit * it.qty) (hacc.add hu_c) hr
        simp only [items_total, hu]
        rw [hrec, round2_eq_self hu_c]
        congr 1
        simp only [List.sum_cons]
        ring

theorem line_totals_error_items_total :
    ∀ {l : List CartItem} {e : HError} (acc : ℚ),
      line_totals l = .error e → items_total acc l = .error e := by
  intro l
  induction l with
  | nil => intro e acc h; cases h
  | cons it rest ih =>
    intro e acc h
    rw [line_totals] at h
    cases hu : item_unit_price it with
    | error e' =>
      rw [hu] at h
      cases h
      simp only [items_total, hu]
    | ok unit =>
      rw [hu] at h
      cases hr : line_totals rest with
      | error e' =>
        rw [hr] at h
        cases h
        simp only [items_total, hu]
        exact ih _ hr
      | ok r => rw [hr] at h; cases h

theorem items_total_ok_units :
    ∀ {l : List CartItem} {acc s : ℚ}, items_total acc l = .ok s →
      ∀ it ∈ l, ∃ u, item_unit_price it = .ok u := by
  intro l
  induction l with
  | nil => intro acc s _ it h; cases h
  | cons it0 rest ih =>
    intro acc s h it hit
    rw [items_total] at h
    cases hu : item_unit_price it0 with
    | error e => rw [hu] at h; cases h
    | ok unit =>
      rw [hu] at h
      rcases List.mem_cons.1 hit with rfl | hit'
      · exact ⟨unit, hu⟩
      · exact ih h it hit'

theorem enrich_ok_of_units :
    ∀ {l : List CartItem}, (∀ it ∈ l, ∃ u, item_unit_price it = .ok u) →
      ∃ r, enrich_order_items l = .ok r := by
  intro l
  induction l with
  | nil => intro _; exact ⟨[], rfl⟩
  | cons it rest ih =>
    intro h
    obtain ⟨u, hu⟩ := h it (by simp)
    obtain ⟨r, hr⟩ := ih fun x hx => h x (by simp [hx])
    refine ⟨⟨it, round2 u, round2 (u * (if it.qty = 0 then 1 else it.qty : Nat))⟩ :: r, ?_⟩
    simp only [enrich_order_items, hu, hr]

theorem cart_subtotal_ok_inv {cart : Cart} {s : ℚ}
    (h : cart_subtotal cart = .ok s) :
    ∃ t, items_total 0 cart.items = .ok t ∧ s = round2 t := by
  rw [cart_subtotal] at h
  cases ht : items_total 0 cart.items with
  | error e => rw [ht] at h; cases h
  | ok t =>
    rw [ht] at h
    cases h
    exact ⟨t, rfl, rfl⟩

theorem compute_totals_ok_inv {cart : Cart} {totals : Totals}
    (h : compute_totals cart = .ok totals) :
    cart_subtotal cart = .ok totals.subtotal ∧
    totals.tax = round2 (totals.subtotal * PRICES_tax_rate) ∧
    totals.total = round2 (totals.subtotal + totals.tax) := by
  rw [compute_totals] at h
  cases hs : cart_subtotal cart with
  | error e => rw [hs] at h; cases h
  | ok s =>
    rw [hs] at h
    cases h
    exact ⟨rfl, rfl, rfl⟩

/-! ### First-occurrence order of the dedup loop -/

theorem pairwise_indexOf_dedupFirst :
    ∀ (l seen : List String),
      (dedupFirst seen l).Pairwise (fun a b => l.indexOf a < l.indexOf b) := by
  intro l
  induction l with
  | nil => intro seen; simp [dedupFirst]
  | cons t rest ih =>
    intro seen
    have transfer : ∀ {s : List String}, (∀ x ∈ dedupFirst s rest, x ≠ t) →
        (dedupFirst s rest).Pairwise
          (fun a b => (t :: rest).indexOf a < (t :: rest).indexOf b) := by
      intro s hne
      refine List.Pairwise.imp_of_mem ?_ (ih s)
      intro a b ha hb hab
      rw [List.indexOf_cons_ne rest (Ne.symm (hne a ha)),
          List.indexOf_cons_ne rest (Ne.symm (hne b hb))]
      omega
    by_cases ht : t ∈ seen
    · rw [dedupFirst, if_pos ht]
      refine transfer ?_
      intro x hx hxt
      exact ((mem_dedupFirst rest seen x).1 hx).2 (hxt ▸ ht)
    · rw [dedupFirst, if_neg ht]
      refine List.pairwise_cons.2 ⟨?_, ?_⟩
      · intro b hb
        have hbt : b ≠ t := fun h =>
          ((mem_dedupFirst rest (t :: seen) b).1 hb).2 (by simp [h])
        rw [List.indexOf_cons_self, List.indexOf_cons_ne rest hbt.symm]
        omega
      · refine transfer ?_
        intro x hx hxt
        exact ((mem_dedupFirst rest (t :: seen) x).1 hx).2 (by simp [hxt])

/-! ### Store lemmas -/

theorem lookup_eq_some_mem {l : List (String × Cart)} {k : String} {v : Cart}
    (h : l.lookup k = some v) : (k, v) ∈ l := by
  obtain ⟨l₁, l₂, rfl, -⟩ := List.lookup_eq_some_iff.1 h
  simp

theorem lookup_map_set_self :
    ∀ {l : List (String × Cart)} {k : String} {cart : Cart} (c : Cart),
      l.lookup k = some cart →
      (l.map (fun p => if p.1 = k then (p.1, c) else p)).lookup k = some c := by
  intro l
  induction l with
  | nil => intro k cart c h; cases h
  | cons p rest ih =>
    obtain ⟨pk, pv⟩ := p
    intro k cart c h
    by_cases hk : k = pk
    · have hbeq : (k == pk) = true := beq_iff_eq.2 hk
      simp only [List.map_cons, if_pos hk.symm, List.lookup_cons, hbeq]
    · have hbeq : (k == pk) = false := beq_eq_false_iff_ne.2 hk
      simp only [List.lookup_cons, hbeq] at h
      simp only [List.map_cons]
      rw [if_neg (fun hc : pk = k => hk hc.symm)]
      simp only [List.lookup_cons, hbeq]
      exact ih c h

theorem lookup_map_set_other :
    ∀ {l : List (String × Cart)} {k other : String} (c : Cart), other ≠ k →
      (l.map (fun p => if p.1 = k then (p.1, c) else p)).lookup other = l.lookup other := by
  intro l
  induction l with
  | nil => intro k other c _; rfl
  | cons p rest ih =>
    obtain ⟨pk, pv⟩ := p
    intro k other c hne
    by_cases hk : pk = k
    · have hbeq : (other == pk) = false := beq_eq_false_iff_ne.2 (hk ▸ hne)
      simp only [List.map_cons, if_pos hk, List.lookup_cons, hbeq]
      exact ih c hne
    · cases hbeq : other == pk with
      | true =>
        simp only [List.map_cons, if_neg hk, List.lookup_cons, hbeq]
      | false =>
        simp only [List.map_cons, if_neg hk, List.lookup_cons, hbeq]
        exact ih c hne

theorem getCartStore_setCart_self {st : AppState} {cart_id : String} {cart : Cart}
    (c : Cart) (h : getCartStore st cart_id = some cart) :
    getCartStore (setCart st cart_id c) cart_id = some c :=
  lookup_map_set_self c h

theorem getCartStore_setCart_other {st : AppState} {cart_id other : String}
    (c : Cart) (hne : other ≠ cart_id) :
    getCartStore (setCart st cart_id c) other = getCartStore st other :=
  lookup_map_set_other c hne

theorem orders_setCart (st : AppState) (cart_id : String) (c : Cart) :
    (setCart st cart_id c).orders = st.orders := rfl

theorem StateInv_setCart {st : AppState} {cart_id : String} {c : Cart}
    (hinv : StateInv st) (hc : CartOK c) : StateInv (setCart st cart_id c) := by
  intro e he
  simp only [setCart] at he
  obtain ⟨p, hp, hpe⟩ := List.mem_map.1 he
  by_cases hk : p.1 = cart_id
  · rw [if_pos hk] at hpe
    subst hpe
    exact hc
  · rw [if_neg hk] at hpe
    subst hpe
    exact hinv p hp

/-! ### Shapes of the state returned by each endpoint -/

theorem add_pizza_fst (st : AppState) (cid : String) (item : CartPizzaItem) :
    (add_pizza st cid item).1 = st ∨
    ∃ cart ts, getCartStore st cid = some cart ∧
      validate_toppings item.customization.toppings = .ok ts ∧
      (add_pizza st cid item).1 = setCart st cid
        { cart with items := cart.items ++
            [.pizza { item with customization :=
              { item.customization with toppings := ts } }] } := by
  cases hc : getCartStore st cid with
  | none => left; simp only [add_pizza, hc]
  | some cart =>
    cases hv : validate_toppings item.customization.toppings with
    | error e => left; simp only [add_pizza, hc, hv]
    | ok ts =>
      right
      refine ⟨cart, ts, rfl, rfl, ?_⟩
      simp only [add_pizza, hc, hv]
      cases compute_totals _ <;> rfl

theorem add_drink_fst (st : AppState) (cid : String) (item : CartDrinkItem) :
    (add_drink st cid item).1 = st ∨
    ∃ cart, getCartStore st cid = some cart ∧ item.drink ≠ .none ∧
      (add_drink st cid item).1 = setCart st cid
        { cart with items := cart.items ++ [.drink item] } := by
  cases hc : getCartStore st cid with
  | none => left; simp only [add_drink, hc]
  | some cart =>
    by_cases hd : item.drink = .none
    · left; simp only [add_drink, hc, if_pos hd]
    · right
      refine ⟨cart, rfl, hd, ?_⟩
      simp only [add_drink, hc, if_neg hd]
      cases compute_totals _ <;> rfl

theorem update_qty_fst (st : AppState) (cid : String) (index qty : Nat) :
    (update_qty st cid index qty).1 = st ∨
    ∃ cart, getCartStore st cid = some cart ∧ index < cart.items.length ∧
      (update_qty st cid index qty).1 = setCart st cid
        { cart with items := cart.items.set index ((cart.items.getD index (CartItem.drink ⟨DrinkType.none, 1⟩)).withQty qty) } := by
  cases hc : getCartStore st cid with
  | none => left; simp only [update_qty, hc]
  | some cart =>
    by_cases hi : index ≥ cart.items.length
    · left; simp only [update_qty, hc, if_pos hi]
    · right
      refine ⟨cart, rfl, by omega, ?_⟩
      simp only [update_qty, hc, if_neg hi]
      cases compute_totals _ <;> rfl

theorem remove_item_fst (st : AppState) (cid : String) (index : Nat) :
    (remove_item st cid index).1 = st ∨
    ∃ cart, getCartStore st cid = some cart ∧ index < cart.items.length ∧
      (remove_item st cid index).1 = setCart st cid
        { cart with items := cart.items.eraseIdx index } := by
  cases hc : getCartStore st cid with
  | none => left; simp only [remove_item, hc]
  | some cart =>
    by_cases hi : index ≥ cart.items.length
    · left; simp only [remove_item, hc, if_pos hi]
    · right
      refine ⟨cart, rfl, by omega, ?_⟩
      simp only [remove_item, hc, if_neg hi]
      cases compute_totals _ <;> rfl

theorem clear_cart_fst (st : AppState) (cid : String) :
    (clear_cart st cid).1 = st ∨
    ∃ cart, getCartStore st cid = some cart ∧
      (clear_cart st cid).1 = setCart st cid { cart with items := [] } := by
  cases hc : getCartStore st cid with
  | none => left; simp only [clear_cart, hc]
  | some cart =>
    right
    refine ⟨cart, rfl, ?_⟩
    simp only [clear_cart, hc]
    cases compute_totals _ <;> rfl

theorem place_order_fst (st : AppState) (req : PlaceOrderRequest) (env : Env) :
    (place_order st req env).1 = st ∨
    ∃ cart oid summary, getCartStore st req.cart_id = some cart ∧
      (place_order st req env).1 =
        setCart ⟨st.carts, (oid, summary) :: st.orders⟩ req.cart_id
          { cart with items := [] } := by
  cases hc : getCartStore st req.cart_id with
  | none => left; simp only [place_order, hc]
  | some cart =>
    by_cases hne : cart.items = []
    · left; simp only [place_order, hc, if_pos hne]
    · cases ht : compute_totals cart with
      | error e => left; simp only [place_order, hc, if_neg hne, ht]
      | ok totals =>
        cases ha : mock_authorize req.payment totals.total env with
        | error e => left; simp only [place_order, hc, if_neg hne, ht, ha]
        | ok auth =>
          cases auth with
          | declined reason =>
            left; simp only [place_order, hc, if_neg hne, ht, ha]
          | approved auth_id amt l4 =>
            cases he : enrich_order_items cart.items with
            | error e =>
              left; simp only [place_order, hc, if_neg hne, ht, ha, he]
            | ok items =>
              right
              refine ⟨cart, "order_" ++ env.fresh_order.take 12,
                ⟨"order_" ++ env.fresh_order.take 12, env.now_iso ++ "Z",
                 req.customer, items, totals, .approved auth_id amt l4,
                 "placed"⟩, rfl, ?_⟩
              simp only [place_order, hc, if_neg hne, ht, ha, he]

/-! ### Invariant preservation helpers -/

theorem ItemOK_withQty (it : CartItem) (q : Nat) (h : ItemOK it) :
    ItemOK (it.withQty q) := by
  cases it with
  | pizza p => exact h
  | drink d => trivial

theorem CartOK_append {cart : Cart} {it : CartItem}
    (h : CartOK cart) (hit : ItemOK it) (items' : List CartItem)
    (heq : items' = cart.items ++ [it]) :
    CartOK { cart with items := items' } := by
  intro x hx
  rw [heq] at hx
  rcases List.mem_append.1 hx with hx' | hx'
  · exact h x hx'
  · rw [List.mem_singleton.1 hx']
    exact hit

theorem CartOK_empty (cart : Cart) : CartOK { cart with items := [] } := by
  intro x hx
  cases hx

theorem CartOK_eraseIdx {cart : Cart} (h : CartOK cart) (index : Nat) :
    CartOK { cart with items := cart.items.eraseIdx index } :=
  fun x hx => h x (List.eraseIdx_subset _ _ hx)

theorem CartOK_set {cart : Cart} (h : CartOK cart) (index : Nat) {it : CartItem}
    (hit : ItemOK it) :
    CartOK { cart with items := cart.items.set index it } := by
  intro x hx
  rcases List.mem_or_eq_of_mem_set hx with hx' | rfl
  · exact h x hx'
  · exact hit

theorem getD_mem_of_lt {l : List CartItem} {index : Nat} (h : index < l.length)
    (d : CartItem) : l.getD index d ∈ l := by
  rw [List.getD_eq_getElem?_getD, List.getElem?_eq_getElem h]
  exact List.getElem_mem h

/-! ### Claim theorems -/

/-- C1: `priceOfPizza` returns the sum of the size base price, the crust
surcharge, the cheese-level adjustment, the crust-flavor surcharge, the
drizzle surcharge, and the per-topping fee (1.25) times the number of
distinct valid toppings, rounded to 2 decimals; it fails with an
`InvalidTopping` error at the first topping not in the fixed catalog.  It is
deterministic: `price_pizza` is a pure function of the customization. -/
theorem price_pizza_claim (c : PizzaCustomization) :
    ((∀ t ∈ c.toppings, t ∈ TOPPINGS) →
      price_pizza c = .ok (round2 (PRICES_size c.size + PRICES_crust c.crust +
        PRICES_cheese c.cheese + PRICES_crust_flavor c.crust_flavor +
        PRICES_drizzle c.drizzle + (5/4 : ℚ) * c.toppings.dedup.length))) ∧
    (∀ bad, c.toppings.find? (fun t => !(decide (t ∈ TOPPINGS))) = some bad →
      price_pizza c = .error ⟨400, "Invalid topping: " ++ bad⟩) := by
  constructor
  · intro h
    rw [price_pizza_of_valid h, length_dedupFirst_eq_length_dedup]
    rfl
  · intro bad hbad
    rw [price_pizza, validate_toppings_error_first hbad]

/-- C1 witness: a pizza whose topping list has a duplicate prices as the
claimed sum over the two distinct toppings. -/
theorem price_pizza_claim_witness :
    price_pizza ⟨.large, .deep_dish, .bbq, .extra, .normal, .pie, .garlic_butter,
        .hot_honey, ["bacon", "ham", "bacon"], ""⟩ =
      .ok (round2 (PRICES_size .large + PRICES_crust .deep_dish +
        PRICES_cheese .extra + PRICES_crust_flavor .garlic_butter +
        PRICES_drizzle .hot_honey +
        (5/4 : ℚ) * (["bacon", "ham", "bacon"].dedup.length))) :=
  (price_pizza_claim _).1 (by decide)

/-- C5: `computeTotals` returns `tax = round(subtotal * 0.0825, 2)` and
`total = round(subtotal + tax, 2)` for every cart whose subtotal is ≥ 0. -/
theorem compute_totals_claim (cart : Cart) (s : ℚ)
    (hs : cart_subtotal cart = .ok s) (_hnn : 0 ≤ s) :
    compute_totals cart =
      .ok ⟨s, round2 (s * (33/400 : ℚ)),
           round2 (s + round2 (s * (33/400 : ℚ)))⟩ := by
  simp only [compute_totals, hs, PRICES_tax_rate]

/-- C5 witness: the empty cart has subtotal 0 and the claimed totals. -/
theorem compute_totals_claim_witness :
    compute_totals ⟨"c", []⟩ =
      .ok ⟨0, round2 ((0 : ℚ) * (33/400 : ℚ)),
           round2 ((0 : ℚ) + round2 ((0 : ℚ) * (33/400 : ℚ)))⟩ :=
  compute_totals_claim ⟨"c", []⟩ 0
    (by show Except.ok (round2 0) = Except.ok 0
        rw [round2_eq_self isCents_zero])
    le_rfl

/-- C6: `cartSubtotal` equals the sum over items of `unit_price * quantity`
with each line total independently rounded to 2 decimals before summing and
the sum itself rounded — the code rounds only at the end, but every line
total is already an exact number of cents, so the two readings agree on
every cart (including the propagated error). -/
theorem cart_subtotal_claim (cart : Cart) :
    cart_subtotal cart = cart_subtotal_spec cart := by
  cases hl : line_totals cart.items with
  | error e =>
    rw [cart_subtotal, line_totals_error_items_total 0 hl, cart_subtotal_spec, hl]
  | ok ls =>
    rw [cart_subtotal, line_totals_ok_items_total 0 isCents_zero hl,
      cart_subtotal_spec, hl, zero_add]

/-- C7: topping validation fails at the first unknown entry (left to right);
on success it returns the input deduplicated keeping first occurrences in
first-occurrence order; it is idempotent on already-deduplicated valid
lists; and the concrete example from the spec holds. -/
theorem validate_toppings_claim :
    (∀ (l : List String) (bad : String),
      l.find? (fun t => !(decide (t ∈ TOPPINGS))) = some bad →
      validate_toppings l = .error ⟨400, "Invalid topping: " ++ bad⟩) ∧
    (∀ l : List String, (∀ t ∈ l, t ∈ TOPPINGS) →
      ∃ out, validate_toppings l = .ok out ∧ out.Nodup ∧
        (∀ x, x ∈ out ↔ x ∈ l) ∧
        out.Pairwise (fun a b => l.indexOf a < l.indexOf b)) ∧
    (∀ l : List String, l.Nodup → (∀ t ∈ l, t ∈ TOPPINGS) →
      validate_toppings l = .ok l) ∧
    validate_toppings ["pepperoni", "pepperoni", "bacon"] =
      .ok ["pepperoni", "bacon"] := by
  refine ⟨fun l bad h => validate_toppings_error_first h, ?_, ?_, ?_⟩
  · intro l h
    refine ⟨dedupFirst [] l, validate_toppings_of_valid h,
      nodup_dedupFirst l [], ?_, pairwise_indexOf_dedupFirst l []⟩
    intro x
    rw [mem_dedupFirst]
    simp
  · intro l hnd h
    rw [validate_toppings_of_valid h, dedupFirst_of_nodup hnd (by simp)]
  · rw [validate_toppings_of_valid (by decide)]
    rfl

/-- C7 witness: an already-deduplicated valid list validates to itself. -/
theorem validate_toppings_claim_witness :
    validate_toppings ["bacon", "spinach"] = .ok ["bacon", "spinach"] :=
  validate_toppings_claim.2.2.1 ["bacon", "spinach"] (by decide) (by decide)

/-- C4: for every payment passing the required-field precondition,
`authorize` decides by the documented per-method table: cash always approved
with id "cash"; giftcard declined iff the trimmed code equals "DECLINE"
case-insensitively, else approved with a "gift_"-prefixed id; card declined
if the expiry (year, month) is strictly before the current (year, month)
(current month still valid), declined if the card digits end in "0000", and
otherwise approved with an "auth_"-prefixed id and `card_last4` the last 4
digits (or "????" if fewer than 4 digits exist). -/
theorem mock_authorize_claim (p : PaymentInfo) (amount : ℚ) (env : Env)
    (hv : validate_required p = .ok ()) :
    (p.method = .cash →
      mock_authorize p amount env = .ok (.approved "cash" amount Option.none)) ∧
    (p.method = .giftcard →
      (mock_authorize p amount env = .ok (.declined "Mock gift card declined") ↔
        (p.code.getD "").trim.toUpper = "DECLINE") ∧
      ((p.code.getD "").trim.toUpper ≠ "DECLINE" →
        mock_authorize p amount env =
          .ok (.approved ("gift_" ++ env.fresh_auth.take 10) amount Option.none))) ∧
    (p.method = .card →
      ((p.exp_year.getD 0 < env.now_year ∨
          (p.exp_year.getD 0 = env.now_year ∧
           p.exp_month.getD 0 < env.now_month)) →
        mock_authorize p amount env = .ok (.declined "Card expired")) ∧
      (¬ (p.exp_year.getD 0 < env.now_year ∨
          (p.exp_year.getD 0 = env.now_year ∧
           p.exp_month.getD 0 < env.now_month)) →
        ("0000" : String).data.isSuffixOf (normalized_card_digits p).data = true →
        mock_authorize p amount env =
          .ok (.declined "Mock decline rule (ends with 0000)")) ∧
      (¬ (p.exp_year.getD 0 < env.now_year ∨
          (p.exp_year.getD 0 = env.now_year ∧
           p.exp_month.getD 0 < env.now_month)) →
        ("0000" : String).data.isSuffixOf (normalized_card_digits p).data = false →
        mock_authorize p amount env =
          .ok (.approved ("auth_" ++ env.fresh_auth.take 12) amount
            (some (if 4 ≤ (normalized_card_digits p).length
                   then (normalized_card_digits p).takeRight 4
                   else "????"))))) := by
  refine ⟨?_, ?_, ?_⟩
  · intro hm
    simp only [mock_authorize, hv, hm]
  · intro hm
    constructor
    · by_cases hd : (p.code.getD "").trim.toUpper = "DECLINE"
      · simp only [mock_authorize, hv, hm, if_pos hd]
        exact iff_of_true trivial hd
      · simp only [mock_authorize, hv, hm, if_neg hd]
        refine iff_of_false (fun h => ?_) hd
        cases h
    · intro hd
      simp only [mock_authorize, hv, hm, if_neg hd]
  · intro hm
    refine ⟨?_, ?_, ?_⟩
    · intro hbefore
      have hexp : ¬ (p.exp_year.getD 0 > env.now_year ∨
          (p.exp_year.getD 0 = env.now_year ∧
           p.exp_month.getD 0 ≥ env.now_month)) := by omega
      simp only [mock_authorize, hv, hm, if_pos hexp]
    · intro hbefore h0
      have hexp : ¬¬ (p.exp_year.getD 0 > env.now_year ∨
          (p.exp_year.getD 0 = env.now_year ∧
           p.exp_month.getD 0 ≥ env.now_month)) := by omega
      simp only [mock_authorize, hv, hm, if_neg hexp, h0, if_pos]
    · intro hbefore h0
      have hexp : ¬¬ (p.exp_year.getD 0 > env.now_year ∨
          (p.exp_year.getD 0 = env.now_year ∧
           p.exp_month.getD 0 ≥ env.now_month)) := by omega
      have h0' : ¬ (("0000" : String).data.isSuffixOf (normalized_card_digits p).data = true) := by
        rw [h0]; simp
      simp only [mock_authorize, hv, hm, if_neg hexp, if_neg h0']

/-- C4 witness: a valid, unexpired card not ending in 0000 is approved with
the last four digits echoed. -/
theorem mock_authorize_claim_witness :
    mock_authorize
      ⟨.card, some "4111 2222 3333 4444", some 12, some 2030, some "123",
       some "90210", Option.none⟩ 5
      ⟨2025, 6, "aaaaaaaaaaaaaaaa", "bbbbbbbbbbbbbbbb", "t"⟩ =
    .ok (.approved ("auth_" ++ ("aaaaaaaaaaaaaaaa" : String).take 12) 5
      (some (if 4 ≤ (normalized_card_digits
              ⟨.card, some "4111 2222 3333 4444", some 12, some 2030, some "123",
               some "90210", Option.none⟩).length
             then (normalized_card_digits
              ⟨.card, some "4111 2222 3333 4444", some 12, some 2030, some "123",
               some "90210", Option.none⟩).takeRight 4
             else "????"))) :=
  ((mock_authorize_claim _ 5 _ (by decide)).2.2 rfl).2.2 (by decide) (by decide)

/-- C8: `removeItem` fails with `NotFound` on an unknown cart id and with
`InvalidIndex` when `index ≥ item count`, leaving the state untouched; for a
valid index it stores the cart with exactly that position removed, every
earlier index unchanged and every later item shifted down by one. -/
theorem remove_item_claim (st : AppState) (cart_id : String) (index : Nat) :
    (getCartStore st cart_id = Option.none →
      remove_item st cart_id index = (st, .error ⟨404, "Cart not found"⟩)) ∧
    (∀ cart, getCartStore st cart_id = some cart →
      (index ≥ cart.items.length →
        remove_item st cart_id index = (st, .error ⟨400, "Invalid index"⟩)) ∧
      (index < cart.items.length →
        (remove_item st cart_id index).1 =
          setCart st cart_id { cart with items := cart.items.eraseIdx index } ∧
        getCartStore (remove_item st cart_id index).1 cart_id =
          some { cart with items := cart.items.eraseIdx index } ∧
        (cart.items.eraseIdx index).length + 1 = cart.items.length ∧
        (∀ j, j < index → (cart.items.eraseIdx index)[j]? = cart.items[j]?) ∧
        (∀ j, index ≤ j →
          (cart.items.eraseIdx index)[j]? = cart.items[j + 1]?))) := by
  constructor
  · intro h
    simp only [remove_item, h]
  · intro cart hc
    constructor
    · intro hge
      simp only [remove_item, hc, if_pos hge]
    · intro hlt
      have hfst : (remove_item st cart_id index).1 =
          setCart st cart_id { cart with items := cart.items.eraseIdx index } := by
        simp only [remove_item, hc, if_neg (not_le.2 hlt)]
        cases compute_totals _ <;> rfl
      refine ⟨hfst, ?_, ?_, ?_, ?_⟩
      · rw [hfst]
        exact getCartStore_setCart_self _ hc
      · rw [List.length_eraseIdx, if_pos hlt]
        omega
      · intro j hj
        exact List.getElem?_eraseIdx_of_lt _ _ _ hj
      · intro j hj
        exact List.getElem?_eraseIdx_of_ge _ _ _ hj

/-- C8 witness: in a 3-item cart, after removing index 1 the former index-2
item is found at index 1. -/
theorem remove_item_claim_witness :
    (((⟨"c", [CartItem.drink ⟨.coke, 1⟩, CartItem.drink ⟨.water, 2⟩,
        CartItem.drink ⟨.sprite, 3⟩]⟩ : Cart).items.eraseIdx 1)[1]? =
      (⟨"c", [CartItem.drink ⟨.coke, 1⟩, CartItem.drink ⟨.water, 2⟩,
        CartItem.drink ⟨.sprite, 3⟩]⟩ : Cart).items[2]?) :=
  (((remove_item_claim
      ⟨[("c", ⟨"c", [CartItem.drink ⟨.coke, 1⟩, CartItem.drink ⟨.water, 2⟩,
        CartItem.drink ⟨.sprite, 3⟩]⟩)], []⟩ "c" 1).2 _ rfl).2
    (by decide)).2.2.2.2 1 (by decide)

/-- C9: `addDrink` on an existing cart fails with `InvalidDrinkSelection`
when the drink is the "none" sentinel, leaving the state untouched;
otherwise it appends the item at the end of the item sequence of the cart. -/
theorem add_drink_claim (st : AppState) (cart_id : String)
    (item : CartDrinkItem) (cart : Cart)
    (hc : getCartStore st cart_id = some cart) :
    (item.drink = .none →
      add_drink st cart_id item =
        (st, .error ⟨400, "Drink cannot be \x27none\x27 as an item"⟩)) ∧
    (item.drink ≠ .none →
      (add_drink st cart_id item).1 = setCart st cart_id
        { cart with items := cart.items ++ [.drink item] } ∧
      getCartStore (add_drink st cart_id item).1 cart_id =
        some { cart with items := cart.items ++ [.drink item] }) := by
  constructor
  · intro hd
    simp only [add_drink, hc, if_pos hd]
  · intro hd
    have hfst : (add_drink st cart_id item).1 = setCart st cart_id
        { cart with items := cart.items ++ [.drink item] } := by
      simp only [add_drink, hc, if_neg hd]
      cases compute_totals _ <;> rfl
    refine ⟨hfst, ?_⟩
    rw [hfst]
    exact getCartStore_setCart_self _ hc

/-- C9 witness: the "none" drink is rejected and the state is unchanged. -/
theorem add_drink_claim_witness :
    add_drink ⟨[("c", ⟨"c", []⟩)], []⟩ "c" ⟨.none, 1⟩ =
      (⟨[("c", ⟨"c", []⟩)], []⟩,
        .error ⟨400, "Drink cannot be \x27none\x27 as an item"⟩) :=
  (add_drink_claim ⟨[("c", ⟨"c", []⟩)], []⟩ "c" ⟨.none, 1⟩ ⟨"c", []⟩ rfl).1 rfl

/-- C2: when the authorizer declines, `placeOrder` returns a non-persisted
`ok: false` result echoing the decline reason, cart, totals and customer;
the state is returned unchanged, so the item list of the cart is exactly as
before (still non-empty) and no order id becomes retrievable. -/
theorem place_order_declined_claim (st : AppState) (req : PlaceOrderRequest)
    (env : Env) (cart : Cart) (totals : Totals) (reason : String)
    (hc : getCartStore st req.cart_id = some cart)
    (hne : cart.items ≠ [])
    (ht : compute_totals cart = .ok totals)
    (ha : mock_authorize req.payment totals.total env = .ok (.declined reason)) :
    place_order st req env =
      (st, .ok (.notPlaced (.declined reason) cart totals req.customer)) ∧
    getCartStore (place_order st req env).1 req.cart_id = some cart ∧
    cart.items ≠ [] ∧
    (∀ order_id, get_order (place_order st req env).1 order_id =
      get_order st order_id) := by
  have h : place_order st req env =
      (st, .ok (.notPlaced (.declined reason) cart totals req.customer)) := by
    simp only [place_order, hc, if_neg hne, ht, ha]
  refine ⟨h, ?_, hne, ?_⟩
  · rw [h]
    exact hc
  · intro oid
    rw [h]

/-- C2 witness: an expired card declines; the state (one cart holding one
coke) is returned unchanged with the echoed cart, totals and customer. -/
theorem place_order_declined_claim_witness :
    place_order
      ⟨[("c", ⟨"c", [CartItem.drink ⟨.coke, 1⟩]⟩)], []⟩
      ⟨"c",
        ⟨"Jane Doe", Option.none, "5551234567", "1 Main St", "", "Springfield",
          "IL", "62701"⟩,
        ⟨.card, some "4111222233334444", some 1, some 2024, some "123",
          some "90210", Option.none⟩⟩
      ⟨2025, 6, "aaaa", "bbbb", "t"⟩ =
    (⟨[("c", ⟨"c", [CartItem.drink ⟨.coke, 1⟩]⟩)], []⟩,
      .ok (.notPlaced (.declined "Card expired")
        ⟨"c", [CartItem.drink ⟨.coke, 1⟩]⟩
        ⟨9/4, round2 ((9/4 : ℚ) * (33/400)),
          round2 ((9/4 : ℚ) + round2 ((9/4 : ℚ) * (33/400)))⟩
        ⟨"Jane Doe", Option.none, "5551234567", "1 Main St", "", "Springfield",
          "IL", "62701"⟩)) := by
  have hcents : IsCents (9/4 : ℚ) := ⟨225, by push_cast; norm_num⟩
  have hsub : cart_subtotal ⟨"c", [CartItem.drink ⟨.coke, 1⟩]⟩ =
      .ok (9/4 : ℚ) := by
    have h1 : cart_subtotal ⟨"c", [CartItem.drink ⟨.coke, 1⟩]⟩ =
        .ok (round2 ((0 : ℚ) + price_drink .coke * ((1 : Nat) : ℚ))) := rfl
    have h2 : (0 : ℚ) + price_drink .coke * ((1 : Nat) : ℚ) = 9/4 := by
      have hpd : price_drink .coke = 9/4 := round2_eq_self hcents
      rw [hpd]
      push_cast
      ring
    rw [h1, h2, round2_eq_self hcents]
  have ht : compute_totals ⟨"c", [CartItem.drink ⟨.coke, 1⟩]⟩ =
      .ok ⟨9/4, round2 ((9/4 : ℚ) * (33/400)),
           round2 ((9/4 : ℚ) + round2 ((9/4 : ℚ) * (33/400)))⟩ := by
    simp only [compute_totals, hsub, PRICES_tax_rate]
  exact (place_order_declined_claim
    ⟨[("c", ⟨"c", [CartItem.drink ⟨.coke, 1⟩]⟩)], []⟩
    ⟨"c",
      ⟨"Jane Doe", Option.none, "5551234567", "1 Main St", "", "Springfield",
        "IL", "62701"⟩,
      ⟨.card, some "4111222233334444", some 1, some 2024, some "123",
        some "90210", Option.none⟩⟩
    ⟨2025, 6, "aaaa", "bbbb", "t"⟩
    ⟨"c", [CartItem.drink ⟨.coke, 1⟩]⟩
    ⟨9/4, round2 ((9/4 : ℚ) * (33/400)),
      round2 ((9/4 : ℚ) + round2 ((9/4 : ℚ) * (33/400)))⟩
    "Card expired" rfl (by simp) ht (by decide)).1

/-- C3: when the authorizer approves a non-empty cart, `placeOrder`
re-validates and re-prices every cart item into a frozen line-item list,
stores the order under a freshly generated identifier (not previously
retrievable), makes it retrievable via `getOrder` with the same totals,
empties the originating cart (which still exists in the store), and returns
`ok: true` with the order. -/
theorem place_order_approved_claim (st : AppState) (req : PlaceOrderRequest)
    (env : Env) (cart : Cart) (totals : Totals) (auth_id : String) (amt : ℚ)
    (l4 : Option String)
    (hc : getCartStore st req.cart_id = some cart)
    (hne : cart.items ≠ [])
    (ht : compute_totals cart = .ok totals)
    (ha : mock_authorize req.payment totals.total env =
      .ok (.approved auth_id amt l4))
    (hfresh : st.orders.lookup ("order_" ++ env.fresh_order.take 12) =
      Option.none) :
    get_order st ("order_" ++ env.fresh_order.take 12) =
      .error ⟨404, "Order not found"⟩ ∧
    ∃ items, enrich_order_items cart.items = .ok items ∧
      (place_order st req env).2 = .ok (.placed
        ⟨"order_" ++ env.fresh_order.take 12, env.now_iso ++ "Z", req.customer,
         items, totals, .approved auth_id amt l4, "placed"⟩) ∧
      get_order (place_order st req env).1 ("order_" ++ env.fresh_order.take 12) =
        .ok ⟨"order_" ++ env.fresh_order.take 12, env.now_iso ++ "Z",
             req.customer, items, totals, .approved auth_id amt l4, "placed"⟩ ∧
      getCartStore (place_order st req env).1 req.cart_id =
        some { cart with items := [] } := by
  obtain ⟨hsub, -, -⟩ := compute_totals_ok_inv ht
  obtain ⟨t, htot, -⟩ := cart_subtotal_ok_inv hsub
  obtain ⟨items, henrich⟩ := enrich_ok_of_units (items_total_ok_units htot)
  have key : place_order st req env =
      (setCart ⟨st.carts, ("order_" ++ env.fresh_order.take 12,
          ⟨"order_" ++ env.fresh_order.take 12, env.now_iso ++ "Z", req.customer,
           items, totals, .approved auth_id amt l4, "placed"⟩) :: st.orders⟩
        req.cart_id { cart with items := [] },
       .ok (.placed
        ⟨"order_" ++ env.fresh_order.take 12, env.now_iso ++ "Z", req.customer,
         items, totals, .approved auth_id amt l4, "placed"⟩)) := by
    simp only [place_order, hc, if_neg hne, ht, ha, henrich]
  refine ⟨?_, items, henrich, ?_, ?_, ?_⟩
  · rw [get_order, hfresh]
  · rw [key]
  · rw [key, get_order, orders_setCart]
    simp
  · rw [key]
    exact getCartStore_setCart_self _ hc

/-- C3 witness: after placing an order on the one-coke cart with a valid
card, the originating cart is still stored but emptied. -/
theorem place_order_approved_claim_witness :
    getCartStore
      (place_order
        ⟨[("c", ⟨"c", [CartItem.drink ⟨.coke, 1⟩]⟩)], []⟩
        ⟨"c",
          ⟨"Jane Doe", Option.none, "5551234567", "1 Main St", "",
            "Springfield", "IL", "62701"⟩,
          ⟨.card, some "4111222233334444", some 12, some 2030, some "123",
            some "90210", Option.none⟩⟩
        ⟨2025, 6, "aaaa", "bbbb", "t"⟩).1 "c" =
      some ⟨"c", []⟩ := by
  have hcents : IsCents (9/4 : ℚ) := ⟨225, by push_cast; norm_num⟩
  have hsub : cart_subtotal ⟨"c", [CartItem.drink ⟨.coke, 1⟩]⟩ =
      .ok (9/4 : ℚ) := by
    have h1 : cart_subtotal ⟨"c", [CartItem.drink ⟨.coke, 1⟩]⟩ =
        .ok (round2 ((0 : ℚ) + price_drink .coke * ((1 : Nat) : ℚ))) := rfl
    have h2 : (0 : ℚ) + price_drink .coke * ((1 : Nat) : ℚ) = 9/4 := by
      have hpd : price_drink .coke = 9/4 := round2_eq_self hcents
      rw [hpd]
      push_cast
      ring
    rw [h1, h2, round2_eq_self hcents]
  have ht : compute_totals ⟨"c", [CartItem.drink ⟨.coke, 1⟩]⟩ =
      .ok ⟨9/4, round2 ((9/4 : ℚ) * (33/400)),
           round2 ((9/4 : ℚ) + round2 ((9/4 : ℚ) * (33/400)))⟩ := by
    simp only [compute_totals, hsub, PRICES_tax_rate]
  obtain ⟨-, items, -, -, -, hcart⟩ :=
    place_order_approved_claim
      ⟨[("c", ⟨"c", [CartItem.drink ⟨.coke, 1⟩]⟩)], []⟩
      ⟨"c",
        ⟨"Jane Doe", Option.none, "5551234567", "1 Main St", "",
          "Springfield", "IL", "62701"⟩,
        ⟨.card, some "4111222233334444", some 12, some 2030, some "123",
          some "90210", Option.none⟩⟩
      ⟨2025, 6, "aaaa", "bbbb", "t"⟩
      ⟨"c", [CartItem.drink ⟨.coke, 1⟩]⟩
      ⟨9/4, round2 ((9/4 : ℚ) * (33/400)),
        round2 ((9/4 : ℚ) + round2 ((9/4 : ℚ) * (33/400)))⟩
      ("auth_" ++ ("aaaa" : String).take 12)
      (round2 ((9/4 : ℚ) + round2 ((9/4 : ℚ) * (33/400))))
      (some (if 4 ≤ (String.mk (("4111222233334444" : String).toList.filter Char.isDigit)).length
             then (String.mk (("4111222233334444" : String).toList.filter Char.isDigit)).takeRight 4
             else "????"))
      rfl (by simp) ht rfl rfl
  exact hcart

/-- C10: in every reachable state, every pizza item stored in any cart has a
duplicate-free toppings list drawn from the 12-topping catalog: `addPizza`
stores only the output of the validator, and every other operation preserves the
invariant. -/
theorem cart_toppings_invariant_claim :
    ∀ {st : AppState}, Reachable st → StateInv st := by
  intro st h
  induction h with
  | init =>
    intro e he
    cases he
  | create_step fresh hprev ih =>
    intro e he
    simp only [create_cart] at he
    rcases List.mem_cons.1 he with rfl | he'
    · intro x hx
      cases hx
    · exact ih e he'
  | add_pizza_step cid item hprev ih =>
    rcases add_pizza_fst _ cid item with heq | ⟨cart, ts, hc, hv, heq⟩
    · rw [heq]; exact ih
    · rw [heq]
      refine StateInv_setCart ih ?_
      refine CartOK_append (ih _ (lookup_eq_some_mem hc)) ?_ _ rfl
      exact validate_toppings_ok_props hv
  | add_drink_step cid item hprev ih =>
    rcases add_drink_fst _ cid item with heq | ⟨cart, hc, hd, heq⟩
    · rw [heq]; exact ih
    · rw [heq]
      refine StateInv_setCart ih ?_
      refine CartOK_append (ih _ (lookup_eq_some_mem hc)) ?_ _ rfl
      trivial
  | update_qty_step cid index qty hprev ih =>
    rcases update_qty_fst _ cid index qty with heq | ⟨cart, hc, hlt, heq⟩
    · rw [heq]; exact ih
    · rw [heq]
      refine StateInv_setCart ih ?_
      refine CartOK_set (ih _ (lookup_eq_some_mem hc)) index ?_
      exact ItemOK_withQty _ qty
        (ih _ (lookup_eq_some_mem hc) _ (getD_mem_of_lt hlt _))
  | remove_item_step cid index hprev ih =>
    rcases remove_item_fst _ cid index with heq | ⟨cart, hc, hlt, heq⟩
    · rw [heq]; exact ih
    · rw [heq]
      exact StateInv_setCart ih (CartOK_eraseIdx (ih _ (lookup_eq_some_mem hc)) index)
  | clear_step cid hprev ih =>
    rcases clear_cart_fst _ cid with heq | ⟨cart, hc, heq⟩
    · rw [heq]; exact ih
    · rw [heq]
      exact StateInv_setCart ih (CartOK_empty cart)
  | place_order_step req env hprev ih =>
    rcases place_order_fst _ req env with heq | ⟨cart, oid, summary, hc, heq⟩
    · rw [heq]; exact ih
    · rw [heq]
      refine StateInv_setCart ?_ (CartOK_empty cart)
      intro e he
      exact ih e he

/-- C10 witness: the state reached by creating a cart and adding a pizza
with a duplicated topping satisfies the invariant. -/
theorem cart_toppings_invariant_claim_witness :
    StateInv (add_pizza (create_cart ⟨[], []⟩ "abcdef123456").1
      "cart_abcdef123456"
      ⟨"Custom Pizza",
        ⟨.small, .thin, .tomato, .normal, .normal, .pie, .none, .none,
          ["pepperoni", "pepperoni"], ""⟩, 1⟩).1 :=
  cart_toppings_invariant_claim
    (Reachable.add_pizza_step _ _ (Reachable.create_step _ Reachable.init))

end PizzaApp
